import Mathlib

/-!
Shallow embedding of the Site-Display firmware core (src/main) in Lean 4.

Conventions of the embedding:
  * C `float` values are modelled as rationals (`ℚ`); arithmetic on them is
    exact, matching the algebraic content of the spec claims.
  * C arrays written by index are modelled as `List` values updated with
    `List.set`; out-of-range reads use `List.getD` with the default the C
    code initialises the array to.
  * Fallible allocation (`malloc`) is modelled by an explicit `alloc_ok`
    boolean parameter, and a `NULL` pointer by `Option`.
  * Names follow the C source (`site_data.c`, `display.cpp`, `main.c`,
    `nvs_storage.c`) wherever Lean allows.
-/

namespace SiteDisplay

/-! ## Constants from site_data.h and site_data.c -/

/-- MAX_READINGS from site_data.h: 24 hours at 5-minute intervals. -/
def MAX_READINGS : Nat := 288

/-- MAX_HOURLY_READINGS from site_data.h. -/
def MAX_HOURLY_READINGS : Nat := 24

/-- g_num_sites from site_data.c (the 8-entry g_site_list). -/
def g_num_sites : Nat := 8

/-! ## Aggregator: aggregate_to_24_hours (site_data.c lines 221-266) -/

/-- readings_per_hour constant inside aggregate_to_24_hours: 5-minute intervals. -/
def readings_per_hour : Nat := 12

/-- total_hours constant inside aggregate_to_24_hours. -/
def total_hours : Nat := 24

/-- Output of aggregate_to_24_hours: the hourly_data and has_data arrays. -/
structure HourlyOut where
  hourly_data : List ℚ
  has_data : List Bool
deriving DecidableEq

/-- Inner loop body of aggregate_to_24_hours (lines 250-256): accumulate
sum and count over one hour group, guarded by idx < num_readings. -/
def hour_step (five_min_data : List ℚ) (h : Nat) (sc : ℚ × Nat) (r : Nat) : ℚ × Nat :=
  let idx := h * readings_per_hour + r
  if idx < five_min_data.length then (sc.1 + five_min_data.getD idx 0, sc.2 + 1) else sc

/-- Sum and count of the readings of hour group h (lines 246-256). -/
def hourSumCount (five_min_data : List ℚ) (h : Nat) : ℚ × Nat :=
  (List.range readings_per_hour).foldl (hour_step five_min_data h) (0, 0)

/-- Body of one iteration of the outer loop of aggregate_to_24_hours
(lines 245-265): average the hour group and write it right-aligned at
position total_hours - available_hours + h when count > 0. -/
def agg_step (five_min_data : List ℚ) (available_hours : Nat) (out : HourlyOut)
    (h : Nat) : HourlyOut :=
  let sc := hourSumCount five_min_data h
  if 0 < sc.2 then
    let pos := total_hours - available_hours + h
    ⟨out.hourly_data.set pos (sc.1 / (sc.2 : ℚ)), out.has_data.set pos true⟩
  else out

/-- Initialisation of the output arrays (lines 228-231): all hours missing. -/
def agg_init : HourlyOut :=
  ⟨List.replicate total_hours 0, List.replicate total_hours false⟩

/-- aggregate_to_24_hours from site_data.c: converts an oldest-first series
of 5-minute readings into a 24-slot hourly series with presence flags.
num_readings is the length of the input list. -/
def aggregate_to_24_hours (five_min_data : List ℚ) : HourlyOut :=
  let num_readings := five_min_data.length
  if num_readings < readings_per_hour then agg_init
  else
    let available_hours := min (num_readings / readings_per_hour) total_hours
    (List.range available_hours).foldl (agg_step five_min_data available_hours) agg_init

/-- Arithmetic mean of hour group h as the C code computes it when the group
is complete: sum of the 12 readings starting at index h*12, divided by 12. -/
def hour_avg (five_min_data : List ℚ) (h : Nat) : ℚ :=
  (((List.range readings_per_hour).map
      (fun r => five_min_data.getD (h * readings_per_hour + r) 0)).sum) / (readings_per_hour : ℚ)

/-! ## List helper lemmas for the array-style reasoning -/

theorem list_getD_set {α : Type} (l : List α) (i p : Nat) (a d : α) (hp : p < l.length) :
    (l.set i a).getD p d = if i = p then a else l.getD p d := by
  rw [List.getD_eq_getElem _ _ (by simpa using hp), List.getElem_set,
    List.getD_eq_getElem _ _ hp]

theorem list_getD_replicate {α : Type} (k p : Nat) (x d : α) (hp : p < k) :
    (List.replicate k x).getD p d = x := by
  rw [List.getD_eq_getElem _ _ (by simpa using hp)]
  simp

theorem range_map_getD_sum_eq_take (l : List ℚ) :
    ∀ k, k ≤ l.length → ((List.range k).map (fun r => l.getD r 0)).sum = (l.take k).sum
  | 0, _ => by simp
  | (k+1), hk => by
    have hk' : k < l.length := by omega
    rw [List.range_succ, List.map_append, List.sum_append,
      range_map_getD_sum_eq_take l k (by omega), List.take_succ,
      List.getElem?_eq_getElem hk', List.sum_append]
    simp [List.getD_eq_getElem l 0 hk', List.getElem?_eq_getElem hk']

/-! ## Aggregator: inner-loop characterisation -/

theorem hour_foldl (five_min_data : List ℚ) (h : Nat) :
    ∀ (k : Nat) (init : ℚ × Nat), h * readings_per_hour + k ≤ five_min_data.length →
      (List.range k).foldl (hour_step five_min_data h) init
        = (init.1 + ((List.range k).map
            (fun r => five_min_data.getD (h * readings_per_hour + r) 0)).sum,
           init.2 + k)
  | 0, init, _ => by simp
  | (k+1), init, hk => by
    rw [List.range_succ, List.foldl_append,
      hour_foldl five_min_data h k init (by omega)]
    simp only [List.foldl_cons, List.foldl_nil, hour_step]
    rw [if_pos (by omega)]
    rw [List.map_append, List.sum_append]
    simp [add_assoc]

theorem hourSumCount_complete (five_min_data : List ℚ) (h : Nat)
    (hk : h * readings_per_hour + readings_per_hour ≤ five_min_data.length) :
    hourSumCount five_min_data h
      = (((List.range readings_per_hour).map
          (fun r => five_min_data.getD (h * readings_per_hour + r) 0)).sum,
         readings_per_hour) := by
  unfold hourSumCount
  rw [hour_foldl five_min_data h readings_per_hour (0, 0) hk]
  simp

/-! ## Aggregator: outer-loop invariant and characterisation -/

theorem agg_invariant (five_min_data : List ℚ) (A : Nat)
    (hA : A = min (five_min_data.length / readings_per_hour) total_hours) :
    ∀ j, j ≤ A →
      ((List.range j).foldl (agg_step five_min_data A) agg_init).hourly_data.length
          = total_hours ∧
      ((List.range j).foldl (agg_step five_min_data A) agg_init).has_data.length
          = total_hours ∧
      ∀ p, p < total_hours →
        (((List.range j).foldl (agg_step five_min_data A) agg_init).has_data.getD p false
            = decide (total_hours - A ≤ p ∧ p < total_hours - A + j)) ∧
        (((List.range j).foldl (agg_step five_min_data A) agg_init).hourly_data.getD p 0
            = if total_hours - A ≤ p ∧ p < total_hours - A + j
              then hour_avg five_min_data (p - (total_hours - A)) else 0)
  | 0, _ => by
    simp only [List.range_zero, List.foldl_nil]
    refine ⟨by simp [agg_init], by simp [agg_init], ?_⟩
    intro p hp
    have hflag : agg_init.has_data.getD p false = false := by
      rw [show agg_init.has_data = List.replicate total_hours false from rfl]
      exact list_getD_replicate _ _ _ _ hp
    have hval : agg_init.hourly_data.getD p 0 = 0 := by
      rw [show agg_init.hourly_data = List.replicate total_hours 0 from rfl]
      exact list_getD_replicate _ _ _ _ hp
    constructor
    · rw [hflag]
      symm
      exact decide_eq_false (by omega)
    · rw [hval, if_neg (by omega)]
  | (j+1), hj => by
    have hA24 : A ≤ total_hours := by omega
    have hAdiv : A ≤ five_min_data.length / readings_per_hour := by omega
    have hlen : (j + 1) * readings_per_hour ≤ five_min_data.length := by
      calc (j + 1) * readings_per_hour
          ≤ (five_min_data.length / readings_per_hour) * readings_per_hour :=
            Nat.mul_le_mul_right _ (by omega)
        _ ≤ five_min_data.length := Nat.div_mul_le_self _ _
    obtain ⟨ih1, ih2, ihp⟩ := agg_invariant five_min_data A hA j (by omega)
    rw [List.range_succ, List.foldl_append, List.foldl_cons, List.foldl_nil]
    have hsc := hourSumCount_complete five_min_data j (by rw [readings_per_hour] at hlen ⊢; omega)
    set S := ((List.range readings_per_hour).map
      (fun r => five_min_data.getD (j * readings_per_hour + r) 0)).sum with hS
    have hstep : agg_step five_min_data A
        ((List.range j).foldl (agg_step five_min_data A) agg_init) j
        = ⟨((List.range j).foldl (agg_step five_min_data A) agg_init).hourly_data.set
             (total_hours - A + j) (S / (readings_per_hour : ℚ)),
           ((List.range j).foldl (agg_step five_min_data A) agg_init).has_data.set
             (total_hours - A + j) true⟩ := by
      rw [agg_step, hsc]
      simp [readings_per_hour]
    rw [hstep]
    refine ⟨by simpa using ih1, by simpa using ih2, ?_⟩
    intro p hp
    have hpos : total_hours - A + j < total_hours := by omega
    constructor
    · rw [list_getD_set _ _ _ _ _ (ih2 ▸ hp)]
      by_cases hc : total_hours - A + j = p
      · rw [if_pos hc]
        symm
        exact decide_eq_true (by omega)
      · rw [if_neg hc, (ihp p hp).1]
        exact decide_eq_decide.mpr (by omega)
    · rw [list_getD_set _ _ _ _ _ (ih1 ▸ hp)]
      by_cases hc : total_hours - A + j = p
      · rw [if_pos hc, if_pos (by omega)]
        have hpj : p - (total_hours - A) = j := by omega
        rw [hpj]
        simp only [hour_avg]
      · rw [if_neg hc, (ihp p hp).2]
        by_cases hcc : total_hours - A ≤ p ∧ p < total_hours - A + j
        · rw [if_pos hcc, if_pos (by omega)]
        · rw [if_neg hcc, if_neg (by omega)]


theorem list_ext_getD {α : Type} (d : α) (l1 l2 : List α) (hl : l1.length = l2.length)
    (h : ∀ p, p < l1.length → l1.getD p d = l2.getD p d) : l1 = l2 := by
  apply List.ext_getElem hl
  intro n h1 h2
  rw [← List.getD_eq_getElem l1 d h1, ← List.getD_eq_getElem l2 d h2]
  exact h n h1

theorem replicate_append_getD {α : Type} (a b n : Nat) (x y d : α) (hn : n < a + b) :
    (List.replicate a x ++ List.replicate b y).getD n d = if n < a then x else y := by
  by_cases hlt : n < a
  · rw [if_pos hlt, List.getD_eq_getElem _ d (by simp; omega),
      List.getElem_append_left (by simpa using hlt)]
    simp
  · rw [if_neg hlt, List.getD_eq_getElem _ d (by simp; omega),
      List.getElem_append_right (by simpa using hlt)]
    simp

/-- Characterisation of the presence flags produced by aggregate_to_24_hours:
exactly the last min(num_readings / 12, 24) slots are marked present. -/
theorem aggregate_has_data_eq (five_min_data : List ℚ) :
    (aggregate_to_24_hours five_min_data).has_data
      = List.replicate
          (total_hours - min (five_min_data.length / readings_per_hour) total_hours) false
        ++ List.replicate
          (min (five_min_data.length / readings_per_hour) total_hours) true := by
  by_cases hlt : five_min_data.length < readings_per_hour
  · have hd : five_min_data.length / readings_per_hour = 0 := Nat.div_eq_of_lt hlt
    simp [aggregate_to_24_hours, hlt, hd, agg_init]
  · push_neg at hlt
    obtain ⟨ih1, ih2, ihp⟩ := agg_invariant five_min_data
      (min (five_min_data.length / readings_per_hour) total_hours) rfl
      (min (five_min_data.length / readings_per_hour) total_hours) le_rfl
    have hagg : aggregate_to_24_hours five_min_data
        = (List.range (min (five_min_data.length / readings_per_hour) total_hours)).foldl
            (agg_step five_min_data
              (min (five_min_data.length / readings_per_hour) total_hours)) agg_init := by
      rw [aggregate_to_24_hours]
      simp only [if_neg (not_lt.mpr hlt)]
    rw [hagg]
    apply list_ext_getD false
    · rw [ih2]
      simp only [List.length_append, List.length_replicate]
      omega
    · intro p hp
      rw [ih2] at hp
      rw [(ihp p hp).1, replicate_append_getD _ _ _ _ _ _ (by omega)]
      by_cases hc : p < total_hours - min (five_min_data.length / readings_per_hour) total_hours
      · rw [if_pos hc]
        exact decide_eq_false (by omega)
      · rw [if_neg hc]
        exact decide_eq_true (by omega)

/-- Characterisation of a present slot value produced by aggregate_to_24_hours:
slot p holds the average of complete hour group p - (24 - H). -/
theorem aggregate_hourly_value (five_min_data : List ℚ) (p : Nat)
    (h12 : readings_per_hour ≤ five_min_data.length) (hp : p < total_hours)
    (hpres : total_hours - min (five_min_data.length / readings_per_hour) total_hours ≤ p) :
    (aggregate_to_24_hours five_min_data).hourly_data.getD p 0
      = hour_avg five_min_data
          (p - (total_hours - min (five_min_data.length / readings_per_hour) total_hours)) := by
  obtain ⟨ih1, ih2, ihp⟩ := agg_invariant five_min_data
    (min (five_min_data.length / readings_per_hour) total_hours) rfl
    (min (five_min_data.length / readings_per_hour) total_hours) le_rfl
  have hagg : aggregate_to_24_hours five_min_data
      = (List.range (min (five_min_data.length / readings_per_hour) total_hours)).foldl
          (agg_step five_min_data
            (min (five_min_data.length / readings_per_hour) total_hours)) agg_init := by
    rw [aggregate_to_24_hours]
    simp only [if_neg (not_lt.mpr h12)]
  rw [hagg, (ihp p hp).2, if_pos (by omega)]


/-! ## Claim C4 -/

/-- Claim C4: for every oldest-first input series of N samples, N at most 288,
aggregate_to_24_hours marks exactly min(N / 12, 24) slots present, occupying
the rightmost positions 24 - H .. 23, the rest absent; for N < 12 the output
is all-absent (H = 0). -/
theorem claim_C4_aggregate_right_aligned (five_min_data : List ℚ)
    (h288 : five_min_data.length ≤ MAX_READINGS) :
    (aggregate_to_24_hours five_min_data).has_data
      = List.replicate
          (total_hours - min (five_min_data.length / readings_per_hour) total_hours) false
        ++ List.replicate
          (min (five_min_data.length / readings_per_hour) total_hours) true
    ∧ (aggregate_to_24_hours five_min_data).has_data.count true
      = min (five_min_data.length / readings_per_hour) total_hours := by
  refine ⟨aggregate_has_data_eq five_min_data, ?_⟩
  rw [aggregate_has_data_eq five_min_data, List.count_append]
  simp [List.count_replicate]

/-- Witness for claim C4 at the concrete input of 24 samples of value 1. -/
theorem claim_C4_witness :
    (List.replicate 24 (1:ℚ)).length ≤ MAX_READINGS
    ∧ ((aggregate_to_24_hours (List.replicate 24 (1:ℚ))).has_data
        = List.replicate
            (total_hours
              - min ((List.replicate 24 (1:ℚ)).length / readings_per_hour) total_hours) false
          ++ List.replicate
            (min ((List.replicate 24 (1:ℚ)).length / readings_per_hour) total_hours) true
      ∧ (aggregate_to_24_hours (List.replicate 24 (1:ℚ))).has_data.count true
        = min ((List.replicate 24 (1:ℚ)).length / readings_per_hour) total_hours) :=
  ⟨by decide, claim_C4_aggregate_right_aligned (List.replicate 24 (1:ℚ)) (by decide)⟩

/-! ## Claim C1 -/

/-- Concrete 20-sample oldest-first series: one complete hour group of 12
samples of value 0 followed by a trailing group of 8 samples of value 2. -/
def ex20 : List ℚ := List.replicate 12 0 ++ List.replicate 8 2

set_option maxRecDepth 40000 in
/-- Claim C1 counterexample: aggregating the concrete 20-sample series ex20
yields exactly ONE present slot, and slot 22 is absent — refuting the claimed
two present slots at positions 22-23 with the trailing group of 8 averaged. -/
theorem claim_C1_counterexample :
    (aggregate_to_24_hours ex20).has_data.getD 22 true = false
    ∧ (aggregate_to_24_hours ex20).has_data.count true = 1 := by
  decide

/-- Claim C1 (amended): the aggregator drops a final group of fewer than 12
remaining samples; aggregating 20 samples yields exactly one present slot, at
position 23, whose value is the average of only the first 12 samples. -/
theorem claim_C1_amended (five_min_data : List ℚ) (h20 : five_min_data.length = 20) :
    (aggregate_to_24_hours five_min_data).has_data
      = List.replicate 23 false ++ [true]
    ∧ (aggregate_to_24_hours five_min_data).hourly_data.getD 23 0
      = (five_min_data.take 12).sum / 12 := by
  have hmin : min (five_min_data.length / readings_per_hour) total_hours = 1 := by
    rw [h20]
    decide
  constructor
  · rw [aggregate_has_data_eq five_min_data, hmin]
    rfl
  · have hv := aggregate_hourly_value five_min_data 23
      (by rw [h20]; decide) (by decide) (by rw [hmin]; decide)
    rw [hv, hmin]
    rw [show 23 - (total_hours - 1) = 0 from by decide]
    unfold hour_avg
    simp only [Nat.zero_mul, Nat.zero_add]
    rw [show readings_per_hour = 12 from rfl,
      range_map_getD_sum_eq_take five_min_data 12 (by rw [h20]; omega)]
    norm_num

/-- Witness for the amended claim C1 at the concrete series ex20. -/
theorem claim_C1_amended_witness :
    ex20.length = 20
    ∧ ((aggregate_to_24_hours ex20).has_data = List.replicate 23 false ++ [true]
      ∧ (aggregate_to_24_hours ex20).hourly_data.getD 23 0 = (ex20.take 12).sum / 12) :=
  ⟨by decide, claim_C1_amended ex20 (by decide)⟩


/-! ## GraphRenderer scale: display_draw_graph (display.cpp lines 352-368) -/

/-- One iteration of the min/max scan loop (display.cpp lines 357-360):
running maximum in the first component, running minimum in the second. -/
def scan_step (mm : ℚ × ℚ) (v : ℚ) : ℚ × ℚ :=
  (if v > mm.1 then v else mm.1, if v < mm.2 then v else mm.2)

/-- The scan over data[0 .. readings-1] starting from the sentinels
max_y = -10000 and min_y = 10000 (display.cpp lines 352-360). Note the scan
runs over every index of the data array; it does not consult has_data. -/
def scan_min_max (data : List ℚ) : ℚ × ℚ :=
  data.foldl scan_step (-10000, 10000)

/-- Scale computation of display_draw_graph (display.cpp lines 352-368),
returning the final pair (y_min, y_max): when auto_scale and readings > 0,
y_max = ceilf(max_y + 0.5f) and y_min = floorf(min_y - 0.5f) from the scan
over all readings positions; afterwards y_max == y_min forces
y_max = y_min + 1. -/
def display_scale (data : List ℚ) (y_min y_max : ℚ) (auto_scale : Bool) : ℚ × ℚ :=
  let s :=
    if auto_scale = true ∧ 0 < data.length then
      (((⌊(scan_min_max data).2 - 1/2⌋ : ℤ) : ℚ), ((⌈(scan_min_max data).1 + 1/2⌉ : ℤ) : ℚ))
    else (y_min, y_max)
  if s.2 = s.1 then (s.1, s.1 + 1) else s

/-- Modelled from the spec words of claim C2, for comparison with the code
(not a translation of display.cpp): the same scale computation but with the
min/max scan restricted to the values whose presence flag is true. -/
def display_scale_spec (data : List ℚ) (has_data : List Bool) (y_min y_max : ℚ)
    (auto_scale : Bool) : ℚ × ℚ :=
  display_scale (((data.zip has_data).filter (fun vp => vp.2)).map (fun vp => vp.1))
    y_min y_max auto_scale

/-! ## Scan lemmas -/

theorem scan_step_eq (mm : ℚ × ℚ) (v : ℚ) : scan_step mm v = (max mm.1 v, min mm.2 v) := by
  unfold scan_step
  congr 1
  · rcases lt_or_le mm.1 v with h | h
    · rw [if_pos h, max_eq_right h.le]
    · rw [if_neg (not_lt.mpr h), max_eq_left h]
  · rcases lt_or_le v mm.2 with h | h
    · rw [if_pos h, min_eq_right h.le]
    · rw [if_neg (not_lt.mpr h), min_eq_left h]

theorem scan_min_max_eq (data : List ℚ) :
    scan_min_max data = (data.foldl max (-10000), data.foldl min 10000) := by
  unfold scan_min_max
  suffices h : ∀ (l : List ℚ) (a b : ℚ),
      l.foldl scan_step (a, b) = (l.foldl max a, l.foldl min b) from h data _ _
  intro l
  induction l with
  | nil => intro a b; rfl
  | cons x xs ih =>
    intro a b
    rw [List.foldl_cons, scan_step_eq, ih, List.foldl_cons, List.foldl_cons]

theorem le_foldl_max (l : List ℚ) :
    ∀ a : ℚ, a ≤ l.foldl max a ∧ ∀ v ∈ l, v ≤ l.foldl max a := by
  induction l with
  | nil =>
    intro a
    exact ⟨le_rfl, by simp⟩
  | cons x xs ih =>
    intro a
    rw [List.foldl_cons]
    obtain ⟨h1, h2⟩ := ih (max a x)
    refine ⟨le_trans (le_max_left a x) h1, ?_⟩
    intro v hv
    rcases List.mem_cons.mp hv with rfl | hv
    · exact le_trans (le_max_right a v) h1
    · exact h2 v hv

theorem foldl_min_le (l : List ℚ) :
    ∀ a : ℚ, l.foldl min a ≤ a ∧ ∀ v ∈ l, l.foldl min a ≤ v := by
  induction l with
  | nil =>
    intro a
    exact ⟨le_rfl, by simp⟩
  | cons x xs ih =>
    intro a
    rw [List.foldl_cons]
    obtain ⟨h1, h2⟩ := ih (min a x)
    refine ⟨le_trans h1 (min_le_left a x), ?_⟩
    intro v hv
    rcases List.mem_cons.mp hv with rfl | hv
    · exact le_trans h1 (min_le_right a v)
    · exact h2 v hv

theorem foldl_max_mem (l : List ℚ) : ∀ a : ℚ, l.foldl max a = a ∨ l.foldl max a ∈ l := by
  induction l with
  | nil =>
    intro a
    exact Or.inl rfl
  | cons x xs ih =>
    intro a
    rw [List.foldl_cons]
    rcases ih (max a x) with h | h
    · rcases max_choice a x with hm | hm
      · exact Or.inl (h.trans hm)
      · exact Or.inr (by rw [h, hm]; exact List.mem_cons_self _ _)
    · exact Or.inr (List.mem_cons_of_mem _ h)

theorem foldl_min_mem (l : List ℚ) : ∀ a : ℚ, l.foldl min a = a ∨ l.foldl min a ∈ l := by
  induction l with
  | nil =>
    intro a
    exact Or.inl rfl
  | cons x xs ih =>
    intro a
    rw [List.foldl_cons]
    rcases ih (min a x) with h | h
    · rcases min_choice a x with hm | hm
      · exact Or.inl (h.trans hm)
      · exact Or.inr (by rw [h, hm]; exact List.mem_cons_self _ _)
    · exact Or.inr (List.mem_cons_of_mem _ h)

theorem foldl_min_le_foldl_max (data : List ℚ) (hne : data ≠ []) :
    data.foldl min 10000 ≤ data.foldl max (-10000) := by
  obtain ⟨d, hd⟩ := List.exists_mem_of_ne_nil data hne
  exact le_trans ((foldl_min_le data 10000).2 d hd) ((le_foldl_max data (-10000)).2 d hd)

theorem scale_floor_lt_ceil {m M : ℚ} (h : m ≤ M) :
    ((⌊m - 1/2⌋ : ℤ) : ℚ) < ((⌈M + 1/2⌉ : ℤ) : ℚ) :=
  calc ((⌊m - 1/2⌋ : ℤ) : ℚ) ≤ m - 1/2 := Int.floor_le _
    _ < M + 1/2 := by linarith
    _ ≤ _ := Int.le_ceil _

/-- In auto-scale mode on a nonempty series the degenerate-scale branch is
never taken and the result is exactly the floor/ceil pair of the scan. -/
theorem display_scale_auto_eq (data : List ℚ) (hne : data ≠ []) (y_min y_max : ℚ) :
    display_scale data y_min y_max true
      = (((⌊data.foldl min 10000 - 1/2⌋ : ℤ) : ℚ),
         ((⌈data.foldl max (-10000) + 1/2⌉ : ℤ) : ℚ)) := by
  have hlt := scale_floor_lt_ceil (foldl_min_le_foldl_max data hne)
  have hcond : True ∧ 0 < data.length := ⟨trivial, List.length_pos.mpr hne⟩
  have hs : (if True ∧ 0 < data.length then
        (((⌊(scan_min_max data).2 - 1/2⌋ : ℤ) : ℚ),
         ((⌈(scan_min_max data).1 + 1/2⌉ : ℤ) : ℚ))
      else (y_min, y_max))
        = (((⌊data.foldl min 10000 - 1/2⌋ : ℤ) : ℚ),
           ((⌈data.foldl max (-10000) + 1/2⌉ : ℤ) : ℚ)) := by
    rw [if_pos hcond, scan_min_max_eq]
  simp only [display_scale]
  rw [hs]
  exact if_neg (ne_of_gt hlt)


/-! ## Claim C8 -/

/-- Claim C8: for every nonempty scanned series, the auto-scaled bounds are
strictly ordered, y_min < y_max, even when all scanned values coincide. -/
theorem claim_C8_strict_scale (data : List ℚ) (hne : data ≠ []) (y_min y_max : ℚ) :
    (display_scale data y_min y_max true).1 < (display_scale data y_min y_max true).2 := by
  rw [display_scale_auto_eq data hne]
  exact scale_floor_lt_ceil (foldl_min_le_foldl_max data hne)

/-- Witness for claim C8 at the one-element series of value 5 (all scanned
values identical). -/
theorem claim_C8_witness :
    ([(5:ℚ)] ≠ [])
    ∧ (display_scale [(5:ℚ)] (-10) 10 true).1 < (display_scale [(5:ℚ)] (-10) 10 true).2 :=
  ⟨by simp, claim_C8_strict_scale [(5:ℚ)] (by simp) (-10) 10⟩

/-! ## Claim C2 -/

/-- Claim C2 (amended): in auto-scale mode, for a nonempty data array whose
values lie strictly inside the sentinel window (-10000, 10000), the computed
bounds are y_min = floor(min - 0.5) and y_max = ceil(max + 0.5) where min and
max are taken over ALL slot values of the data array, regardless of the
presence flags. -/
theorem claim_C2_amended (data : List ℚ) (hne : data ≠ [])
    (hb : ∀ v ∈ data, -10000 < v ∧ v < 10000) (y_min y_max : ℚ) :
    ∃ m ∈ data, ∃ M ∈ data,
      (∀ v ∈ data, m ≤ v ∧ v ≤ M)
      ∧ display_scale data y_min y_max true
          = (((⌊m - 1/2⌋ : ℤ) : ℚ), ((⌈M + 1/2⌉ : ℤ) : ℚ)) := by
  obtain ⟨d, hd⟩ := List.exists_mem_of_ne_nil data hne
  have hmmem : data.foldl min 10000 ∈ data := by
    rcases foldl_min_mem data 10000 with h | h
    · exfalso
      have h1 := (foldl_min_le data 10000).2 d hd
      have h2 := (hb d hd).2
      rw [h] at h1
      linarith
    · exact h
  have hMmem : data.foldl max (-10000) ∈ data := by
    rcases foldl_max_mem data (-10000) with h | h
    · exfalso
      have h1 := (le_foldl_max data (-10000)).2 d hd
      have h2 := (hb d hd).1
      rw [h] at h1
      linarith
    · exact h
  refine ⟨data.foldl min 10000, hmmem, data.foldl max (-10000), hMmem, ?_,
    display_scale_auto_eq data hne y_min y_max⟩
  intro v hv
  exact ⟨(foldl_min_le data 10000).2 v hv, (le_foldl_max data (-10000)).2 v hv⟩

/-- Witness for the amended claim C2 at the one-element series of value 5. -/
theorem claim_C2_amended_witness :
    ([(5:ℚ)] ≠ [])
    ∧ (∀ v ∈ [(5:ℚ)], -10000 < v ∧ v < 10000)
    ∧ ∃ m ∈ [(5:ℚ)], ∃ M ∈ [(5:ℚ)],
        (∀ v ∈ [(5:ℚ)], m ≤ v ∧ v ≤ M)
        ∧ display_scale [(5:ℚ)] (-10) 10 true
            = (((⌊m - 1/2⌋ : ℤ) : ℚ), ((⌈M + 1/2⌉ : ℤ) : ℚ)) :=
  ⟨by simp, by norm_num,
   claim_C2_amended [(5:ℚ)] (by simp) (by norm_num) (-10) 10⟩


/-! ## Claim C2: counterexample evaluation helpers -/

theorem foldl_min_replicate (x : ℚ) :
    ∀ (k : Nat) (a : ℚ), (List.replicate k x).foldl min a = if k = 0 then a else min a x
  | 0, a => by simp
  | (k+1), a => by
    rw [List.replicate_succ, List.foldl_cons, foldl_min_replicate x k (min a x)]
    rcases Nat.eq_zero_or_pos k with h | h
    · simp [h]
    · rw [if_neg (by omega), if_neg (by omega), min_assoc, min_self]

theorem foldl_max_replicate (x : ℚ) :
    ∀ (k : Nat) (a : ℚ), (List.replicate k x).foldl max a = if k = 0 then a else max a x
  | 0, a => by simp
  | (k+1), a => by
    rw [List.replicate_succ, List.foldl_cons, foldl_max_replicate x k (max a x)]
    rcases Nat.eq_zero_or_pos k with h | h
    · simp [h]
    · rw [if_neg (by omega), if_neg (by omega), max_assoc, max_self]

theorem zip_replicate_same {α β : Type} (x : α) (y : β) :
    ∀ k : Nat, (List.replicate k x).zip (List.replicate k y) = List.replicate k (x, y)
  | 0 => rfl
  | (k+1) => by
    rw [List.replicate_succ, List.replicate_succ, List.replicate_succ,
      List.zip_cons_cons, zip_replicate_same x y k]

theorem filter_snd_replicate_false {α : Type} (x : α) :
    ∀ k : Nat, (List.replicate k (x, false)).filter (fun vp => vp.2) = []
  | 0 => rfl
  | (k+1) => by
    rw [List.replicate_succ, List.filter_cons]
    simp [filter_snd_replicate_false x k]

/-- Concrete 24-slot data array for the claim C2 counterexample: slots 0-22
carry the absent-slot sentinel value 0, slot 23 carries the value 100. -/
def cex_data : List ℚ := List.replicate 23 0 ++ [100]

/-- Presence flags matching cex_data: only slot 23 is present. -/
def cex_has_data : List Bool := List.replicate 23 false ++ [true]

/-- Claim C2 counterexample: on cex_data the code scans all 24 slots, so the
sentinel zeros drag y_min down to floor(0 - 0.5) = -1, whereas the claimed
presence-filtered scan would give y_min = floor(100 - 0.5) = 99. -/
theorem claim_C2_counterexample :
    display_scale cex_data (-10) 10 true = (-1, 101)
    ∧ display_scale_spec cex_data cex_has_data (-10) 10 true = (99, 101) := by
  constructor
  · rw [display_scale_auto_eq cex_data (by simp [cex_data]) (-10) 10]
    have hmin : cex_data.foldl min 10000 = 0 := by
      rw [show cex_data = List.replicate 23 0 ++ [100] from rfl, List.foldl_append,
        foldl_min_replicate]
      norm_num [min_def]
    have hmax : cex_data.foldl max (-10000) = 100 := by
      rw [show cex_data = List.replicate 23 0 ++ [100] from rfl, List.foldl_append,
        foldl_max_replicate]
      norm_num [max_def]
    rw [hmin, hmax]
    have h1 : ⌊(0:ℚ) - 1/2⌋ = -1 := by
      apply Int.floor_eq_iff.mpr
      norm_num
    have h2 : ⌈(100:ℚ) + 1/2⌉ = 101 := by
      apply Int.ceil_eq_iff.mpr
      norm_num
    rw [h1, h2]
    norm_num
  · have hpres : ((cex_data.zip cex_has_data).filter (fun vp => vp.2)).map
        (fun vp => vp.1) = [(100:ℚ)] := by
      rw [show cex_data = List.replicate 23 0 ++ [100] from rfl,
        show cex_has_data = List.replicate 23 false ++ [true] from rfl,
        List.zip_append (by simp), zip_replicate_same,
        List.zip_cons_cons, List.filter_append, filter_snd_replicate_false]
      simp
    rw [show display_scale_spec cex_data cex_has_data (-10) 10 true
        = display_scale (((cex_data.zip cex_has_data).filter (fun vp => vp.2)).map
            (fun vp => vp.1)) (-10) 10 true from rfl, hpres,
      display_scale_auto_eq [(100:ℚ)] (by simp) (-10) 10]
    have hmin : ([(100:ℚ)]).foldl min 10000 = 100 := by
      norm_num [min_def]
    have hmax : ([(100:ℚ)]).foldl max (-10000) = 100 := by
      norm_num [max_def]
    rw [hmin, hmax]
    have h1 : ⌊(100:ℚ) - 1/2⌋ = 99 := by
      apply Int.floor_eq_iff.mpr
      norm_num
    have h2 : ⌈(100:ℚ) + 1/2⌉ = 101 := by
      apply Int.ceil_eq_iff.mpr
      norm_num
    rw [h1, h2]
    norm_num


/-! ## GraphRenderer bar height: display_draw_graph (display.cpp lines 431-448) -/

/-- Sequential clamp of display.cpp lines 433-435: first raise to y_min,
then lower to y_max. -/
def constrain (v y_min y_max : ℚ) : ℚ :=
  let c1 := if v < y_min then y_min else v
  if c1 > y_max then y_max else c1

/-- C cast of a nonnegative-or-negative float to int: truncation toward 0. -/
def c_trunc (x : ℚ) : ℤ := if x < 0 then ⌈x⌉ else ⌊x⌋

/-- Bar height for a present slot (display.cpp lines 433-438): the clamped
value linearly mapped from [y_min, y_max] to [0, graph_h] and truncated to
int, then raised to 1 when it is below 1 while the clamped value is strictly
above y_min. -/
def bar_height (v y_min y_max : ℚ) (graph_h : ℤ) : ℤ :=
  let constrained := constrain v y_min y_max
  let bh := c_trunc ((constrained - y_min) / (y_max - y_min) * (graph_h : ℚ))
  if bh < 1 ∧ y_min < constrained then 1 else bh

theorem constrain_mem (v y_min y_max : ℚ) (hle : y_min ≤ y_max) :
    y_min ≤ constrain v y_min y_max ∧ constrain v y_min y_max ≤ y_max := by
  unfold constrain
  rcases lt_or_le v y_min with h1 | h1
  · rw [if_pos h1]
    rcases lt_or_le y_max y_min with h2 | h2
    · rw [if_pos h2]
      exact ⟨hle, le_rfl⟩
    · rw [if_neg (not_lt.mpr h2)]
      exact ⟨le_rfl, hle⟩
  · rw [if_neg (not_lt.mpr h1)]
    rcases lt_or_le y_max v with h2 | h2
    · rw [if_pos h2]
      exact ⟨hle, le_rfl⟩
    · rw [if_neg (not_lt.mpr h2)]
      exact ⟨h1, h2⟩

theorem bar_height_eq (v y_min y_max : ℚ) (graph_h : ℤ) :
    bar_height v y_min y_max graph_h
      = if c_trunc ((constrain v y_min y_max - y_min) / (y_max - y_min) * (graph_h : ℚ)) < 1
          ∧ y_min < constrain v y_min y_max
        then 1
        else c_trunc ((constrain v y_min y_max - y_min) / (y_max - y_min) * (graph_h : ℚ)) := rfl

/-! ## Claim C9 -/

/-- Claim C9: with a proper scale y_min < y_max and a positive body height,
the bar height of a present slot is the clamp-then-linear-map value in
[0, graph_h]; a clamped value strictly above y_min always yields height at
least 1, while a clamped value equal to y_min yields height exactly 0. -/
theorem claim_C9_bar_height (v y_min y_max : ℚ) (graph_h : ℤ)
    (hlt : y_min < y_max) (hg : 1 ≤ graph_h) :
    (constrain v y_min y_max = y_min → bar_height v y_min y_max graph_h = 0)
    ∧ (y_min < constrain v y_min y_max → 1 ≤ bar_height v y_min y_max graph_h)
    ∧ 0 ≤ bar_height v y_min y_max graph_h
    ∧ bar_height v y_min y_max graph_h ≤ graph_h := by
  obtain ⟨hcl, hcu⟩ := constrain_mem v y_min y_max hlt.le
  have hden : (0:ℚ) < y_max - y_min := sub_pos.mpr hlt
  have hgh0 : (0:ℚ) ≤ (graph_h : ℚ) := by exact_mod_cast (by omega : (0:ℤ) ≤ graph_h)
  have hr0 : 0 ≤ (constrain v y_min y_max - y_min) / (y_max - y_min) :=
    div_nonneg (sub_nonneg.mpr hcl) hden.le
  have hr1 : (constrain v y_min y_max - y_min) / (y_max - y_min) ≤ 1 :=
    (div_le_one hden).mpr (by linarith)
  have hx0 : 0 ≤ (constrain v y_min y_max - y_min) / (y_max - y_min) * (graph_h : ℚ) :=
    mul_nonneg hr0 hgh0
  have hx1 : (constrain v y_min y_max - y_min) / (y_max - y_min) * (graph_h : ℚ)
      ≤ (graph_h : ℚ) := mul_le_of_le_one_left hgh0 hr1
  have hct : c_trunc ((constrain v y_min y_max - y_min) / (y_max - y_min) * (graph_h : ℚ))
      = ⌊(constrain v y_min y_max - y_min) / (y_max - y_min) * (graph_h : ℚ)⌋ := by
    unfold c_trunc
    rw [if_neg (not_lt.mpr hx0)]
  have hbh0 : 0 ≤ ⌊(constrain v y_min y_max - y_min) / (y_max - y_min) * (graph_h : ℚ)⌋ :=
    Int.floor_nonneg.mpr hx0
  have hbhg : ⌊(constrain v y_min y_max - y_min) / (y_max - y_min) * (graph_h : ℚ)⌋
      ≤ graph_h := by
    have := Int.floor_le_floor hx1
    rwa [Int.floor_intCast] at this
  refine ⟨?_, ?_, ?_, ?_⟩
  · intro hc
    rw [bar_height_eq, hct]
    rw [if_neg (by rw [hc]; exact fun hh => absurd hh.2 (lt_irrefl y_min))]
    rw [hc]
    simp
  · intro hc
    rw [bar_height_eq, hct]
    by_cases hb : ⌊(constrain v y_min y_max - y_min) / (y_max - y_min) * (graph_h : ℚ)⌋ < 1
    · rw [if_pos ⟨hb, hc⟩]
    · rw [if_neg (fun hh => hb hh.1)]
      omega
  · rw [bar_height_eq, hct]
    by_cases hb : (⌊(constrain v y_min y_max - y_min) / (y_max - y_min) * (graph_h : ℚ)⌋ < 1
        ∧ y_min < constrain v y_min y_max)
    · rw [if_pos hb]
      omega
    · rw [if_neg hb]
      exact hbh0
  · rw [bar_height_eq, hct]
    by_cases hb : (⌊(constrain v y_min y_max - y_min) / (y_max - y_min) * (graph_h : ℚ)⌋ < 1
        ∧ y_min < constrain v y_min y_max)
    · rw [if_pos hb]
      omega
    · rw [if_neg hb]
      exact hbhg

/-- Witness for claim C9 at v = 5, scale [0, 10], body height 50. -/
theorem claim_C9_witness :
    (0:ℚ) < 10 ∧ (1:ℤ) ≤ 50
    ∧ ((constrain 5 0 10 = 0 → bar_height 5 0 10 50 = 0)
      ∧ (0 < constrain 5 0 10 → 1 ≤ bar_height 5 0 10 50)
      ∧ 0 ≤ bar_height 5 0 10 50
      ∧ bar_height 5 0 10 50 ≤ 50) :=
  ⟨by norm_num, by norm_num, claim_C9_bar_height 5 0 10 50 (by norm_num) (by norm_num)⟩


/-! ## SiteCache: per-site cache of main.c (lines 41-49, 356-416) -/

/-- site_reading_t from site_data.h. Float fields are modelled as rationals,
the fixed char buffers as strings. -/
structure site_reading_t where
  dt : Int
  timestamp : String
  temperature : ℚ
  water_temp : ℚ
  pressure : ℚ
  voltage : ℚ
  counter : Int
deriving DecidableEq

/-- site_cache_t from main.c lines 41-47. The readings pointer is modelled
as an Option: none is the NULL pointer, some rs an allocated buffer whose
meaningful prefix has length num_readings. -/
structure site_cache_t where
  has_data : Bool
  readings : Option (List site_reading_t)
  num_readings : Nat
  time_str : String
  date_str : String
deriving DecidableEq

/-- A zeroed cache entry, as produced by the calloc of app_main line 85:
has_data = false, readings = NULL, num_readings = 0, empty strings. -/
def emptyEntry : site_cache_t :=
  ⟨false, none, 0, "", ""⟩

/-- The global state read and written by the cache helpers of main.c:
g_site_readings together with g_num_readings (modelled as one list whose
length is g_num_readings), g_time_str, g_date_str and g_data_loaded. -/
structure Globals where
  readings : List site_reading_t
  time_str : String
  date_str : String
  data_loaded : Bool
deriving DecidableEq

/-- The cleared global state that load_cached_site_data produces when there
is no cached data (main.c lines 358-363 and 376-383). -/
def no_data_globals : Globals :=
  ⟨[], "", "", false⟩

/-- save_current_site_data from main.c lines 386-416. The cache table is the
list of per-site entries (allocated in app_main line 85 with g_num_sites
entries); alloc_ok tells whether the malloc of line 401 succeeds. Returns
the cache table after the call. -/
def save_current_site_data (cache : List site_cache_t) (site_index : Int)
    (g : Globals) (alloc_ok : Bool) : List site_cache_t :=
  if site_index < 0 ∨ (g_num_sites : Int) ≤ site_index ∨ g.readings.length = 0 then
    cache
  else
    let i := site_index.toNat
    let freed : site_cache_t := { cache.getD i emptyEntry with readings := none }
    if alloc_ok then
      cache.set i
        { has_data := true
          readings := some g.readings
          num_readings := g.readings.length
          time_str := g.time_str
          date_str := g.date_str }
    else
      cache.set i { freed with has_data := false }

/-- load_cached_site_data from main.c lines 356-384. Returns the global
state after the call: either the cached series restored, or the cleared
no-data state. -/
def load_cached_site_data (cache : List site_cache_t) (site_index : Int) : Globals :=
  if site_index < 0 ∨ (g_num_sites : Int) ≤ site_index then
    no_data_globals
  else
    let entry := cache.getD site_index.toNat emptyEntry
    match entry.readings with
    | some rs =>
        if entry.has_data ∧ 0 < entry.num_readings then
          { readings := rs.take entry.num_readings
            time_str := entry.time_str
            date_str := entry.date_str
            data_loaded := true }
        else no_data_globals
    | none => no_data_globals

/-! ## Claim C5 -/

/-- Claim C5: saving an empty series is a no-op on the cache — for every site
index and cache state the cache is returned unchanged, so a subsequent load
returns exactly what it would have returned before the save. -/
theorem claim_C5_save_empty_noop (cache : List site_cache_t) (site_index : Int)
    (g : Globals) (alloc_ok : Bool) (hempty : g.readings = []) :
    save_current_site_data cache site_index g alloc_ok = cache
    ∧ load_cached_site_data (save_current_site_data cache site_index g alloc_ok) site_index
        = load_cached_site_data cache site_index := by
  have hsave : save_current_site_data cache site_index g alloc_ok = cache := by
    unfold save_current_site_data
    rw [if_pos (Or.inr (Or.inr (by rw [hempty]; rfl)))]
  exact ⟨hsave, by rw [hsave]⟩

/-- A sample cached entry used by the cache witnesses. -/
def sample_reading : site_reading_t :=
  ⟨1700000000, "10:00 01/01/24", 5, 4, 1, 3, 42⟩

/-- A sample global state holding one reading. -/
def sample_globals : Globals :=
  ⟨[sample_reading], "10:00:00", "Mon, 01. Jan 2024", true⟩

/-- An empty-series global state. -/
def empty_globals : Globals :=
  ⟨[], "10:00:00", "Mon, 01. Jan 2024", true⟩

/-- Witness for claim C5 at site index 3 on a freshly allocated cache. -/
theorem claim_C5_witness :
    empty_globals.readings = []
    ∧ (save_current_site_data (List.replicate g_num_sites emptyEntry) 3 empty_globals true
        = List.replicate g_num_sites emptyEntry
      ∧ load_cached_site_data
          (save_current_site_data (List.replicate g_num_sites emptyEntry) 3 empty_globals true) 3
        = load_cached_site_data (List.replicate g_num_sites emptyEntry) 3) :=
  ⟨rfl, claim_C5_save_empty_noop (List.replicate g_num_sites emptyEntry) 3 empty_globals true rfl⟩


/-! ## Claim C6 -/

/-- Claim C6: for a valid site index and a nonempty series, with allocation
succeeding, save followed by load of the same index returns exactly the saved
series with the saved time and date strings, whatever the cache held before. -/
theorem claim_C6_save_then_load (cache : List site_cache_t) (site_index : Int)
    (g : Globals) (hi0 : 0 ≤ site_index) (hin : site_index < (g_num_sites : Int))
    (hc : cache.length = g_num_sites) (hne : g.readings ≠ []) :
    load_cached_site_data (save_current_site_data cache site_index g true) site_index
      = { readings := g.readings
          time_str := g.time_str
          date_str := g.date_str
          data_loaded := true } := by
  have hlen : g.readings.length ≠ 0 := fun h => hne (List.length_eq_zero.mp h)
  have hsave : save_current_site_data cache site_index g true
      = cache.set site_index.toNat
          { has_data := true
            readings := some g.readings
            num_readings := g.readings.length
            time_str := g.time_str
            date_str := g.date_str } := by
    unfold save_current_site_data
    rw [if_neg (by push_neg; exact ⟨by omega, by omega, hlen⟩)]
    rw [if_pos rfl]
  have hlt : site_index.toNat < cache.length := by
    rw [hc]
    omega
  have hgd : (cache.set site_index.toNat
      { has_data := true
        readings := some g.readings
        num_readings := g.readings.length
        time_str := g.time_str
        date_str := g.date_str }).getD site_index.toNat emptyEntry
      = { has_data := true
          readings := some g.readings
          num_readings := g.readings.length
          time_str := g.time_str
          date_str := g.date_str } := by
    rw [list_getD_set _ _ _ _ _ hlt, if_pos rfl]
  rw [hsave]
  unfold load_cached_site_data
  rw [if_neg (by push_neg; exact ⟨by omega, by omega⟩)]
  rw [hgd]
  have hpos : 0 < g.readings.length := by omega
  simp [hpos, List.take_length]

/-- Witness for claim C6 at site index 3 on a freshly allocated cache with a
one-reading series. -/
theorem claim_C6_witness :
    (0:Int) ≤ 3 ∧ (3:Int) < (g_num_sites : Int)
    ∧ (List.replicate g_num_sites emptyEntry).length = g_num_sites
    ∧ sample_globals.readings ≠ []
    ∧ load_cached_site_data
        (save_current_site_data (List.replicate g_num_sites emptyEntry) 3 sample_globals true) 3
      = { readings := sample_globals.readings
          time_str := sample_globals.time_str
          date_str := sample_globals.date_str
          data_loaded := true } :=
  ⟨by omega, by norm_num [g_num_sites], rfl, by simp [sample_globals],
   claim_C6_save_then_load (List.replicate g_num_sites emptyEntry) 3 sample_globals
     (by omega) (by norm_num [g_num_sites]) rfl (by simp [sample_globals])⟩

/-! ## Claim C7 -/

/-- Claim C7: if allocation fails during save of a nonempty series (after the
prior storage has been released), the cache entry for that index is left with
has_data = false and a NULL readings pointer, and a subsequent load of that
index returns the no-data result. -/
theorem claim_C7_alloc_fail (cache : List site_cache_t) (site_index : Int)
    (g : Globals) (hi0 : 0 ≤ site_index) (hin : site_index < (g_num_sites : Int))
    (hc : cache.length = g_num_sites) (hne : g.readings ≠ []) :
    ((save_current_site_data cache site_index g false).getD site_index.toNat emptyEntry).has_data
        = false
    ∧ ((save_current_site_data cache site_index g false).getD site_index.toNat
        emptyEntry).readings = none
    ∧ load_cached_site_data (save_current_site_data cache site_index g false) site_index
        = no_data_globals := by
  have hlen : g.readings.length ≠ 0 := fun h => hne (List.length_eq_zero.mp h)
  have hsave : save_current_site_data cache site_index g false
      = cache.set site_index.toNat
          { (cache.getD site_index.toNat emptyEntry) with
              readings := none
              has_data := false } := by
    unfold save_current_site_data
    rw [if_neg (by push_neg; exact ⟨by omega, by omega, hlen⟩)]
    rfl
  have hlt : site_index.toNat < cache.length := by
    rw [hc]
    omega
  have hgd : (save_current_site_data cache site_index g false).getD site_index.toNat emptyEntry
      = { (cache.getD site_index.toNat emptyEntry) with
            readings := none
            has_data := false } := by
    rw [hsave, list_getD_set _ _ _ _ _ hlt, if_pos rfl]
  refine ⟨by rw [hgd], by rw [hgd], ?_⟩
  unfold load_cached_site_data
  rw [if_neg (by push_neg; exact ⟨by omega, by omega⟩)]
  rw [hgd]

/-- Witness for claim C7 at site index 3 on a freshly allocated cache with a
one-reading series and a failing allocation. -/
theorem claim_C7_witness :
    (0:Int) ≤ 3 ∧ (3:Int) < (g_num_sites : Int)
    ∧ (List.replicate g_num_sites emptyEntry).length = g_num_sites
    ∧ sample_globals.readings ≠ []
    ∧ (((save_current_site_data (List.replicate g_num_sites emptyEntry) 3 sample_globals
            false).getD (3:Int).toNat emptyEntry).has_data = false
      ∧ ((save_current_site_data (List.replicate g_num_sites emptyEntry) 3 sample_globals
            false).getD (3:Int).toNat emptyEntry).readings = none
      ∧ load_cached_site_data
          (save_current_site_data (List.replicate g_num_sites emptyEntry) 3 sample_globals
            false) 3
          = no_data_globals) :=
  ⟨by omega, by norm_num [g_num_sites], rfl, by simp [sample_globals],
   claim_C7_alloc_fail (List.replicate g_num_sites emptyEntry) 3 sample_globals
     (by omega) (by norm_num [g_num_sites]) rfl (by simp [sample_globals])⟩


/-! ## First-boot detection (main.c lines 120-135, nvs_storage.c lines 109-141) -/

/-- nvs_is_first_boot from nvs_storage.c lines 109-141, as a function of the
persisted first_boot key: none models a missing namespace or key or a read
error, all treated as first boot; some v models a stored value, first boot
iff v is nonzero. nvs_storage_init (lines 29-42) writes 1 on the very first
start and nvs_clear_first_boot (lines 143-170) writes 0 — but app_main never
calls nvs_is_first_boot or nvs_clear_first_boot. -/
def nvs_is_first_boot (stored_first_boot : Option Int) : Bool :=
  match stored_first_boot with
  | none => true
  | some v => v != 0

/-- The first-boot decision actually taken by app_main lines 120-130: scan
the in-memory site cache for any entry with has_data and treat the boot as
first boot iff none is found. The persisted flag is not consulted. -/
def app_main_is_first_boot (cache : List site_cache_t) : Bool :=
  !(cache.any (fun c => c.has_data))

/-- The site cache as it stands when app_main performs the first-boot check:
freshly calloc-ed at line 85, all entries zeroed, no fetch has run yet. -/
def startup_site_cache : List site_cache_t :=
  List.replicate g_num_sites emptyEntry

/-- Claim C3, code evaluated at the failing input: at every boot the cache
scanned by app_main is the freshly allocated one, so the check reports first
boot and the fetch-all pass is triggered even in a persisted state whose
first-boot flag is cleared (stored value 0), a state in which
nvs_is_first_boot reports false. The pass therefore runs on every boot where
WiFi connects, not exactly once gated by the persisted one-shot flag. -/
theorem claim_C3_first_boot_check :
    app_main_is_first_boot startup_site_cache = true
    ∧ nvs_is_first_boot (some 0) = false
    ∧ nvs_is_first_boot (some 1) = true := by
  decide

/-! ## Selection index (main.c lines 91-103, 216-245, 427-483) -/

/-- Validation of the site index loaded from NVS at startup (app_main lines
97-99): an out-of-range value is reset to 0. -/
def validate_site_index (saved : Int) : Int :=
  if saved < 0 ∨ (g_num_sites : Int) ≤ saved then 0 else saved

/-- BTN_EVENT_UP handler update of g_current_site_index (main.c line 219).
Int.tmod is the C % operator on int operands. -/
def rotate_up (i : Int) : Int :=
  (i + 1).tmod (g_num_sites : Int)

/-- BTN_EVENT_DOWN handler update of g_current_site_index (main.c line 234). -/
def rotate_down (i : Int) : Int :=
  (i - 1 + (g_num_sites : Int)).tmod (g_num_sites : Int)

/-- The successive values taken by g_current_site_index during
first_boot_fetch_all_sites (main.c lines 439-480): the loop sets it to each
site index 0 .. g_num_sites - 1 in order, then line 479 restores the saved
original value, which is also the final one. -/
def fetch_all_index_trace (original : Int) : List Int :=
  ((List.range g_num_sites).map (fun i => Int.ofNat i)) ++ [original]

/-! ## Claim C10 -/

/-- Claim C10: the selection index stays inside [0, g_num_sites): the startup
validation forces any loaded value into range, rotate up and down map an
in-range index to an in-range index, and the fetch-all pass only ever sets
in-range indices and finishes by restoring the original index. -/
theorem claim_C10_site_index_in_range (saved i : Int)
    (hi : 0 ≤ i ∧ i < (g_num_sites : Int)) :
    (0 ≤ validate_site_index saved ∧ validate_site_index saved < (g_num_sites : Int))
    ∧ (0 ≤ rotate_up i ∧ rotate_up i < (g_num_sites : Int))
    ∧ (0 ≤ rotate_down i ∧ rotate_down i < (g_num_sites : Int))
    ∧ (fetch_all_index_trace i).getLast? = some i
    ∧ (∀ j ∈ fetch_all_index_trace i, 0 ≤ j ∧ j < (g_num_sites : Int)) := by
  have h8 : (g_num_sites : Int) = 8 := rfl
  refine ⟨?_, ?_, ?_, ?_, ?_⟩
  · unfold validate_site_index
    by_cases h : saved < 0 ∨ (g_num_sites : Int) ≤ saved
    · rw [if_pos h]
      omega
    · rw [if_neg h]
      push_neg at h
      omega
  · unfold rotate_up
    rw [Int.tmod_eq_emod (by omega) (by omega)]
    exact ⟨Int.emod_nonneg _ (by omega), Int.emod_lt_of_pos _ (by omega)⟩
  · unfold rotate_down
    rw [Int.tmod_eq_emod (by omega) (by omega)]
    exact ⟨Int.emod_nonneg _ (by omega), Int.emod_lt_of_pos _ (by omega)⟩
  · exact List.getLast?_concat _
  · intro j hj
    unfold fetch_all_index_trace at hj
    rw [List.mem_append] at hj
    rcases hj with hj | hj
    · simp only [List.mem_map, List.mem_range] at hj
      obtain ⟨k, hk, rfl⟩ := hj
      have hco : Int.ofNat k = (k : Int) := rfl
      rw [hco]
      omega
    · rw [List.mem_singleton] at hj
      subst hj
      exact hi

/-- Witness for claim C10 at saved = 99 (out of range) and i = 7. -/
theorem claim_C10_witness :
    ((0:Int) ≤ 7 ∧ (7:Int) < (g_num_sites : Int))
    ∧ ((0 ≤ validate_site_index 99 ∧ validate_site_index 99 < (g_num_sites : Int))
      ∧ (0 ≤ rotate_up 7 ∧ rotate_up 7 < (g_num_sites : Int))
      ∧ (0 ≤ rotate_down 7 ∧ rotate_down 7 < (g_num_sites : Int))
      ∧ (fetch_all_index_trace 7).getLast? = some 7
      ∧ (∀ j ∈ fetch_all_index_trace 7, 0 ≤ j ∧ j < (g_num_sites : Int))) :=
  ⟨by decide, claim_C10_site_index_in_range 99 7 (by decide)⟩

end SiteDisplay
